import Mathlib

/-!
Verification of the simple-notes application core (src/notes_app_frontend/src/App.js).

The JavaScript source is shallowly embedded below:
* `Note` mirrors the note record `{ id, title, body, updatedAt }`.
* `AppState` mirrors the React state of `App`: the `notes` array, the
  `editingId` (`null` ↦ `none`, the `"NEW"` sentinel kept as the string
  `"NEW"`), and the editor draft fields `title` / `body`.
* `jsTrim`, `jsToLower`, `containsSub` embed `String.prototype.trim`,
  `toLowerCase` and `includes` at the level of character lists.
* `saveCurrent`, `deleteNote`, `startEdit`, `cancelEdit`, `startNew`,
  `syncEditorEffect` and `filterNotes` embed the handlers and memos of the
  component.  `saveCurrent` additionally reports whether `setNotes` was
  invoked (a `setNotes` call hands a fresh array to React, so the
  `useEffect` on `[notes]` fires and persistence is triggered).
* `JVal` models the JSON values handled by `JSON.parse` / `JSON.stringify`
  in the persistence layer; `loadNotesFromStorage` / `saveNotesToStorage`
  embed the storage round trip, with `none` standing for an absent,
  unreadable or unparsable blob and the nondeterministic `generateId()` /
  `new Date().toISOString()` passed in as oracles.
-/

/-- A note record: `{ id, title, body, updatedAt }`. -/
structure Note where
  id : String
  title : String
  body : String
  updatedAt : String
deriving DecidableEq

/-- The component state of `App`: the notes array, `editingId`
(`null` as `none`, the `"NEW"` sentinel as the literal string), and the
editor draft fields. -/
structure AppState where
  notes : List Note
  editingId : Option String
  title : String
  body : String
deriving DecidableEq

/-- Embedding of `String.prototype.trim` on character lists: drop leading
whitespace, then drop trailing whitespace. -/
def trimList (l : List Char) : List Char :=
  ((l.dropWhile Char.isWhitespace).reverse.dropWhile Char.isWhitespace).reverse

/-- Embedding of `String.prototype.trim`. -/
def jsTrim (s : String) : String :=
  ⟨trimList s.data⟩

/-- Embedding of `String.prototype.toLowerCase`, character by character. -/
def jsToLower (s : String) : String :=
  ⟨s.data.map Char.toLower⟩

/-- Does `l` start with `needle`?  (Helper for `containsSub`.) -/
def listStartsWith : List Char → List Char → Bool
  | _, [] => true
  | [], _ :: _ => false
  | a :: as, b :: bs => a == b && listStartsWith as bs

/-- Embedding of `String.prototype.includes`: does `hay` contain `needle`
as a contiguous substring? -/
def containsSub (needle : List Char) : List Char → Bool
  | [] => needle.isEmpty
  | c :: t => listStartsWith (c :: t) needle || containsSub needle t

/-- The `filteredNotes` memo:
`const q = search.trim().toLowerCase(); if (!q) return notes;` then filter
on ``(`${n.title}\n${n.body}`).toLowerCase().includes(q)``. -/
def filterNotes (notes : List Note) (search : String) : List Note :=
  let q := jsToLower (jsTrim search)
  if q = "" then notes
  else notes.filter fun n => containsSub q.data (jsToLower (n.title ++ "\n" ++ n.body)).data

/-- The `startNew` handler: `setEditingId("NEW"); setTitle(""); setBody("")`. -/
def startNew (s : AppState) : AppState :=
  { s with editingId := some "NEW", title := "", body := "" }

/-- The `startEdit` handler: `setEditingId(id)` and nothing else. -/
def startEdit (id : String) (s : AppState) : AppState :=
  { s with editingId := some id }

/-- The `cancelEdit` handler: `setEditingId(null); setTitle(""); setBody("")`. -/
def cancelEdit (s : AppState) : AppState :=
  { s with editingId := none, title := "", body := "" }

/-- The `editingNote` memo: `notes.find((n) => n.id === editingId) ?? null`.
A `null` `editingId` matches no note's string id. -/
def editingNote (s : AppState) : Option Note :=
  match s.editingId with
  | none => none
  | some e => s.notes.find? fun n => n.id == e

/-- The editor-sync `useEffect`: `if (!editingNote) return;` else copy the
target note's `title` / `body` into the draft fields. -/
def syncEditorEffect (s : AppState) : AppState :=
  match editingNote s with
  | none => s
  | some n => { s with title := n.title, body := n.body }

/-- The `deleteNote` handler: `setNotes(prev.filter((n) => n.id !== id))`,
then `if (editingId === id) cancelEdit()`. -/
def deleteNote (id : String) (s : AppState) : AppState :=
  let s1 := { s with notes := s.notes.filter fun n => n.id != id }
  if s1.editingId = some id then cancelEdit s1 else s1

/-- The `saveCurrent` handler.  `freshId` stands for the `generateId()`
call and `now` for `new Date().toISOString()`.  The boolean records
whether `setNotes` was invoked — exactly then does the `useEffect` on
`[notes]` fire and call `saveNotesToStorage` (React state setters always
receive a freshly built array here, so the effect always re-runs).
The edit branch is guarded by the JavaScript truthiness test
`if (editingId)`, under which both `null` and the empty string are
falsy: a session at `Editing("")` falls through both branches and the
handler does nothing at all. -/
def saveCurrent (freshId now : String) (s : AppState) : AppState × Bool :=
  let trimmedTitle := jsTrim s.title
  let trimmedBody := jsTrim s.body
  if trimmedTitle = "" ∧ trimmedBody = "" then (s, false)
  else if s.editingId = some "NEW" then
    let newNote : Note :=
      { id := freshId
        title := if trimmedTitle = "" then "Untitled" else trimmedTitle
        body := trimmedBody
        updatedAt := now }
    ({ s with notes := newNote :: s.notes, editingId := none, title := "", body := "" }, true)
  else
    match s.editingId with
    | some eid =>
        if eid = "" then (s, false)
        else
          ({ s with
              notes := s.notes.map fun n =>
                if n.id = eid then
                  { n with
                      title := if trimmedTitle = "" then "Untitled" else trimmedTitle
                      body := trimmedBody
                      updatedAt := now }
                else n
              editingId := none, title := "", body := "" }, true)
    | none => (s, false)

/-- A note that the spec forbids from being persisted: both fields blank
after trimming. -/
def blankNote (n : Note) : Prop :=
  jsTrim n.title = "" ∧ jsTrim n.body = ""

instance (n : Note) : Decidable (blankNote n) := by
  unfold blankNote; infer_instance

/-- A JSON value, as produced by `JSON.parse` and consumed by
`JSON.stringify` in the persistence layer.  Numbers are modelled as
integers (no claim depends on the float pretty-printer). -/
inductive JVal where
  | null : JVal
  | bool (b : Bool) : JVal
  | num (n : Int) : JVal
  | str (s : String) : JVal
  | arr (xs : List JVal) : JVal
  | obj (fields : List (String × JVal)) : JVal

mutual

/-- Embedding of the JavaScript `String(v)` coercion applied by
`loadNotesFromStorage` to the `id`/`title`/`body` fields. -/
def jToStr : JVal → String
  | .null => "null"
  | .bool b => if b then "true" else "false"
  | .num n => toString n
  | .str s => s
  | .arr xs => String.intercalate "," (jArrParts xs)
  | .obj _ => "[object Object]"

/-- `Array.prototype.toString` joins the coerced elements with `","`,
rendering `null` elements as the empty string. -/
def jArrParts : List JVal → List String
  | [] => []
  | .null :: rest => "" :: jArrParts rest
  | v :: rest => jToStr v :: jArrParts rest

end

/-- The `n && typeof n === "object"` filter of `loadNotesFromStorage`:
`null` is falsy, and `typeof` is `"object"` exactly for (non-null)
objects and arrays. -/
def isObjectLike : JVal → Bool
  | .obj _ => true
  | .arr _ => true
  | _ => false

/-- JavaScript property access `v[k]` for the load coercion: a named
field on an object, `undefined` (here `none`) otherwise. -/
def getField (v : JVal) (k : String) : Option JVal :=
  match v with
  | .obj fields => fields.lookup k
  | _ => none

/-- The per-element coercion of `loadNotesFromStorage`:
`id: String(n.id ?? generateId())`, `title: String(n.title ?? "")`,
`body: String(n.body ?? "")`, and `updatedAt` kept only when it is a
string, else replaced with the current time.  (`??` fires on `undefined`
and `null` only.) -/
def coerceNote (freshId now : String) (v : JVal) : Note :=
  { id :=
      match getField v "id" with
      | none => freshId
      | some .null => freshId
      | some w => jToStr w
    title :=
      match getField v "title" with
      | none => ""
      | some .null => ""
      | some w => jToStr w
    body :=
      match getField v "body" with
      | none => ""
      | some .null => ""
      | some w => jToStr w
    updatedAt :=
      match getField v "updatedAt" with
      | some (.str s) => s
      | _ => now }

/-- The `parsed.filter((n) => n && typeof n === "object").map(...)` pipeline
of `loadNotesFromStorage`, with the filter and the map fused so that the
`fresh` oracle can be threaded: `fresh i` is the id handed to the `i`-th
retained element should it need one. -/
def loadElems (fresh : Nat → String) (now : String) : Nat → List JVal → List Note
  | _, [] => []
  | i, x :: xs =>
      if isObjectLike x then coerceNote (fresh i) now x :: loadElems fresh now (i + 1) xs
      else loadElems fresh now i xs

/-- `loadNotesFromStorage`: `none` stands for an absent blob, an empty raw
string, or a `JSON.parse` failure (the `try`/`catch` returns `[]`); a
parsed non-array value also yields `[]`. -/
def loadNotesFromStorage (fresh : Nat → String) (now : String) (raw : Option JVal) : List Note :=
  match raw with
  | none => []
  | some (.arr xs) => loadElems fresh now 0 xs
  | some _ => []

/-- Serialization of one note by `JSON.stringify`, fields in insertion
order. -/
def noteToJVal (n : Note) : JVal :=
  .obj [("id", .str n.id), ("title", .str n.title), ("body", .str n.body),
        ("updatedAt", .str n.updatedAt)]

/-- `saveNotesToStorage` on the success path: the JSON array written to
the blob store (write failures are swallowed by the `try`/`catch` and
leave the previous blob intact). -/
def saveNotesToStorage (notes : List Note) : JVal :=
  .arr (notes.map noteToJVal)

/-! ### Helper lemmas about trimming and substring search -/

theorem length_dropWhile_le (p : Char → Bool) (l : List Char) :
    (l.dropWhile p).length ≤ l.length := by
  induction l with
  | nil => simp
  | cons a l ih =>
      by_cases h : p a
      · simp only [List.dropWhile_cons, h, if_true]
        exact Nat.le_succ_of_le ih
      · simp [List.dropWhile_cons, h]

theorem dropWhile_idem (p : Char → Bool) (l : List Char) :
    (l.dropWhile p).dropWhile p = l.dropWhile p := by
  induction l with
  | nil => rfl
  | cons a l ih =>
      by_cases h : p a
      · simp [List.dropWhile_cons, h, ih]
      · simp [List.dropWhile_cons, h]

/-- Removal of a trailing run of `p`-characters (the second half of
`trimList`). -/
def trimBack (p : Char → Bool) (l : List Char) : List Char :=
  (l.reverse.dropWhile p).reverse

theorem trimBack_idem (p : Char → Bool) (l : List Char) :
    trimBack p (trimBack p l) = trimBack p l := by
  unfold trimBack
  rw [List.reverse_reverse, dropWhile_idem]

theorem trimBack_append (p : Char → Bool) (l : List Char) :
    trimBack p l ++ (l.reverse.takeWhile p).reverse = l := by
  unfold trimBack
  rw [← List.reverse_append, List.takeWhile_append_dropWhile, List.reverse_reverse]

theorem dropWhile_trimBack (p : Char → Bool) (l : List Char)
    (h : l.dropWhile p = l) : (trimBack p l).dropWhile p = trimBack p l := by
  cases hb : trimBack p l with
  | nil => rfl
  | cons c a =>
      have hsplit := trimBack_append p l
      rw [hb] at hsplit
      rw [← hsplit, List.cons_append, List.dropWhile_cons] at h
      by_cases hp : p c
      · exfalso
        rw [if_pos hp] at h
        have hle := length_dropWhile_le p (a ++ (l.reverse.takeWhile p).reverse)
        rw [h, List.length_cons] at hle
        omega
      · rw [List.dropWhile_cons, if_neg hp]

theorem trimList_idem (l : List Char) : trimList (trimList l) = trimList l := by
  have hm : (l.dropWhile Char.isWhitespace).dropWhile Char.isWhitespace
      = l.dropWhile Char.isWhitespace := dropWhile_idem _ _
  calc trimList (trimList l)
      = trimBack Char.isWhitespace ((trimBack Char.isWhitespace
          (l.dropWhile Char.isWhitespace)).dropWhile Char.isWhitespace) := rfl
    _ = trimBack Char.isWhitespace (trimBack Char.isWhitespace
          (l.dropWhile Char.isWhitespace)) := by rw [dropWhile_trimBack _ _ hm]
    _ = trimBack Char.isWhitespace (l.dropWhile Char.isWhitespace) := trimBack_idem _ _
    _ = trimList l := rfl

theorem jsTrim_idem (s : String) : jsTrim (jsTrim s) = jsTrim s :=
  congrArg String.mk (trimList_idem s.data)

theorem jsToLower_eq_empty_iff (s : String) : jsToLower s = "" ↔ s = "" := by
  constructor
  · intro h
    exact String.ext (List.map_eq_nil_iff.mp (congrArg String.data h))
  · intro h
    rw [h]
    rfl

theorem listStartsWith_iff (l needle : List Char) :
    listStartsWith l needle = true ↔ ∃ r, l = needle ++ r := by
  induction needle generalizing l with
  | nil => simp [listStartsWith]
  | cons b bs ih =>
      cases l with
      | nil => simp [listStartsWith]
      | cons a as =>
          simp only [listStartsWith, Bool.and_eq_true, beq_iff_eq, ih,
            List.cons_append, List.cons_eq_cons]
          constructor
          · rintro ⟨hab, r, hr⟩
            exact ⟨r, hab, hr⟩
          · rintro ⟨r, hab, hr⟩
            exact ⟨hab, r, hr⟩

theorem containsSub_iff (needle hay : List Char) :
    containsSub needle hay = true ↔ ∃ a b, hay = a ++ needle ++ b := by
  induction hay with
  | nil =>
      constructor
      · intro h
        have hne : needle = [] := by simpa [containsSub, List.isEmpty_iff] using h
        exact ⟨[], [], by simp [hne]⟩
      · rintro ⟨a, b, hab⟩
        obtain ⟨h1, -⟩ := List.append_eq_nil.mp hab.symm
        obtain ⟨-, h2⟩ := List.append_eq_nil.mp h1
        simp [containsSub, h2]
  | cons c t ih =>
      rw [show containsSub needle (c :: t)
            = (listStartsWith (c :: t) needle || containsSub needle t) from rfl]
      rw [Bool.or_eq_true, listStartsWith_iff, ih]
      constructor
      · rintro (⟨r, hr⟩ | ⟨a, b, hab⟩)
        · exact ⟨[], r, by simpa using hr⟩
        · exact ⟨c :: a, b, by simp [hab]⟩
      · rintro ⟨a, b, hab⟩
        cases a with
        | nil => exact Or.inl ⟨b, by simpa using hab⟩
        | cons a0 as =>
            right
            have hx : c :: t = a0 :: (as ++ needle ++ b) := by simpa using hab
            injection hx with h1 h2
            exact ⟨as, b, h2⟩

/-! ### Branch lemmas for `saveCurrent` -/

theorem saveCurrent_blank (freshId now : String) (s : AppState)
    (ht : jsTrim s.title = "") (hb : jsTrim s.body = "") :
    saveCurrent freshId now s = (s, false) := by
  unfold saveCurrent
  simp [ht, hb]

theorem saveCurrent_new (freshId now : String) (s : AppState)
    (hmode : s.editingId = some "NEW")
    (h : ¬(jsTrim s.title = "" ∧ jsTrim s.body = "")) :
    saveCurrent freshId now s =
      ({ notes := { id := freshId
                    title := if jsTrim s.title = "" then "Untitled" else jsTrim s.title
                    body := jsTrim s.body
                    updatedAt := now } :: s.notes
         editingId := none, title := "", body := "" }, true) := by
  simp only [saveCurrent]
  rw [if_neg h, if_pos hmode]

theorem saveCurrent_edit (freshId now eid : String) (s : AppState)
    (hmode : s.editingId = some eid) (hne : eid ≠ "NEW") (hemp : eid ≠ "")
    (h : ¬(jsTrim s.title = "" ∧ jsTrim s.body = "")) :
    saveCurrent freshId now s =
      ({ notes := s.notes.map fun n =>
            if n.id = eid then
              { n with
                  title := if jsTrim s.title = "" then "Untitled" else jsTrim s.title
                  body := jsTrim s.body
                  updatedAt := now }
            else n
         editingId := none, title := "", body := "" }, true) := by
  have hnew : ¬ s.editingId = some "NEW" := by
    rw [hmode]
    simp [hne]
  simp only [saveCurrent]
  rw [if_neg h, if_neg hnew, hmode]
  simp [hemp]

theorem saveCurrent_falsy_edit (freshId now : String) (s : AppState)
    (hmode : s.editingId = some "") :
    saveCurrent freshId now s = (s, false) := by
  have hnew : ¬ s.editingId = some "NEW" := by
    rw [hmode]
    simp
  simp only [saveCurrent]
  by_cases hblank : jsTrim s.title = "" ∧ jsTrim s.body = ""
  · rw [if_pos hblank]
  · rw [if_neg hblank, if_neg hnew, hmode]
    simp

theorem saveCurrent_idle (freshId now : String) (s : AppState)
    (hmode : s.editingId = none) :
    saveCurrent freshId now s = (s, false) := by
  simp only [saveCurrent]
  by_cases hblank : jsTrim s.title = "" ∧ jsTrim s.body = ""
  · rw [if_pos hblank]
  · rw [if_neg hblank, if_neg (by rw [hmode]; simp), hmode]

theorem saveCurrent_edit_missing_notes (freshId now eid : String) (s : AppState)
    (hmode : s.editingId = some eid) (hne : eid ≠ "NEW")
    (hmiss : ∀ n ∈ s.notes, n.id ≠ eid) :
    (saveCurrent freshId now s).1.notes = s.notes := by
  by_cases hemp : eid = ""
  · subst hemp
    rw [saveCurrent_falsy_edit freshId now s hmode]
  by_cases hblank : jsTrim s.title = "" ∧ jsTrim s.body = ""
  · rw [saveCurrent_blank freshId now s hblank.1 hblank.2]
  · rw [saveCurrent_edit freshId now eid s hmode hne hemp hblank]
    have h1 : ∀ n ∈ s.notes, (if n.id = eid then
        { n with
            title := if jsTrim s.title = "" then "Untitled" else jsTrim s.title
            body := jsTrim s.body
            updatedAt := now }
      else n) = id n := fun n hn => by rw [if_neg (hmiss n hn)]; rfl
    show s.notes.map _ = s.notes
    rw [List.map_congr_left h1, List.map_id]

theorem deleteNote_editing (x : String) (s : AppState) (hmode : s.editingId = some x) :
    deleteNote x s =
      { notes := s.notes.filter fun n => n.id != x
        editingId := none, title := "", body := "" } := by
  simp only [deleteNote, cancelEdit]
  rw [hmode]
  simp

/-! ### Sample data for the concrete witnesses -/

def wNoteA : Note :=
  { id := "a1", title := "Groceries", body := "Milk, eggs", updatedAt := "2026-01-01T00:00:00Z" }

def wNoteB : Note :=
  { id := "b2", title := "beta", body := "second body", updatedAt := "2026-01-02T00:00:00Z" }

/-! ### Claims -/

/-- C3: a save whose title and body are both empty after trimming is a
silent no-op — the whole state (collection, editor mode, drafts) is
returned unchanged and `setNotes` is not called, so no persistence write
is triggered.  This holds in every editor mode. -/
theorem C3_blank_save_is_noop (freshId now : String) (s : AppState)
    (ht : jsTrim s.title = "") (hb : jsTrim s.body = "") :
    saveCurrent freshId now s = (s, false) :=
  saveCurrent_blank freshId now s ht hb

def wStC3 : AppState :=
  { notes := [wNoteA], editingId := some "NEW", title := "   ", body := "" }

/-- Witness for C3 at a concrete Creating-mode state with whitespace drafts. -/
theorem C3_blank_save_is_noop_witness :
    jsTrim wStC3.title = "" ∧ jsTrim wStC3.body = "" ∧
      saveCurrent "f1" "T1" wStC3 = (wStC3, false) :=
  ⟨by decide, by decide, C3_blank_save_is_noop "f1" "T1" wStC3 (by decide) (by decide)⟩

/-- C4: in Creating mode, a save whose trimmed title or body is non-empty
prepends exactly one new note carrying the freshly generated id, the
trimmed title (`"Untitled"` when the trimmed title is empty), the trimmed
body and `updatedAt = now`; the pre-existing notes are unchanged, in
order, and the length grows by exactly one. -/
theorem C4_create_prepends (freshId now : String) (s : AppState)
    (hmode : s.editingId = some "NEW")
    (h : ¬(jsTrim s.title = "" ∧ jsTrim s.body = "")) :
    (saveCurrent freshId now s).1.notes =
      { id := freshId
        title := if jsTrim s.title = "" then "Untitled" else jsTrim s.title
        body := jsTrim s.body
        updatedAt := now } :: s.notes ∧
    (saveCurrent freshId now s).1.notes.length = s.notes.length + 1 ∧
    (saveCurrent freshId now s).2 = true := by
  rw [saveCurrent_new freshId now s hmode h]
  simp

def wStC4 : AppState :=
  { notes := [wNoteA], editingId := some "NEW", title := " Hi ", body := " there " }

/-- Witness for C4 at a concrete Creating-mode state. -/
theorem C4_create_prepends_witness :
    wStC4.editingId = some "NEW" ∧ ¬(jsTrim wStC4.title = "" ∧ jsTrim wStC4.body = "") ∧
    ((saveCurrent "f2" "T2" wStC4).1.notes =
        { id := "f2"
          title := if jsTrim wStC4.title = "" then "Untitled" else jsTrim wStC4.title
          body := jsTrim wStC4.body
          updatedAt := "T2" } :: wStC4.notes ∧
      (saveCurrent "f2" "T2" wStC4).1.notes.length = wStC4.notes.length + 1 ∧
      (saveCurrent "f2" "T2" wStC4).2 = true) :=
  ⟨by decide, by decide, C4_create_prepends "f2" "T2" wStC4 (by decide) (by decide)⟩

def wStC2e : AppState :=
  { notes := [wNoteA], editingId := some "", title := "x", body := "" }

/-- C2 counterexample: the claim quantifies over every id not present in
the collection, but at the empty-string id (no note of `wStC2e` carries
it, and the drafts are non-blank after trimming) the truthiness guard
`if (editingId)` is falsy: the save does nothing at all, so the session
stays at Editing of `""` with its draft intact instead of abandoning the
edit and returning to Idle. -/
theorem C2_empty_id_counterexample :
    saveCurrent "f7" "T7" wStC2e = (wStC2e, false) ∧
    (saveCurrent "f7" "T7" wStC2e).1.editingId = some "" ∧
    (saveCurrent "f7" "T7" wStC2e).1.title = "x" := by
  decide

/-- C2 amended: a save in Editing mode targeting a non-empty id that is
not in the collection leaves the collection unchanged (element for
element) and the editor session abandons the edit: it returns to Idle
with both drafts cleared.  (A save while editing the empty-string id —
reachable, since load can produce a note with id `""` — is silently
ignored by the falsy `if (editingId)` guard: collection, mode and drafts
are all left as they were; see the counterexample.) -/
theorem C2_update_missing_abandons_edit (freshId now eid : String) (s : AppState)
    (hmode : s.editingId = some eid) (hne : eid ≠ "NEW") (hemp : eid ≠ "")
    (hmiss : ∀ n ∈ s.notes, n.id ≠ eid)
    (h : ¬(jsTrim s.title = "" ∧ jsTrim s.body = "")) :
    (saveCurrent freshId now s).1.notes = s.notes ∧
    (saveCurrent freshId now s).1.editingId = none ∧
    (saveCurrent freshId now s).1.title = "" ∧
    (saveCurrent freshId now s).1.body = "" := by
  refine ⟨saveCurrent_edit_missing_notes freshId now eid s hmode hne hmiss, ?_, ?_, ?_⟩ <;>
    rw [saveCurrent_edit freshId now eid s hmode hne hemp h]

def wStC2 : AppState :=
  { notes := [wNoteA], editingId := some "zz", title := "x", body := "" }

/-- Witness for the amended C2: editing the absent id `"zz"` over a
one-note collection. -/
theorem C2_update_missing_abandons_edit_witness :
    wStC2.editingId = some "zz" ∧
    ((saveCurrent "f3" "T3" wStC2).1.notes = wStC2.notes ∧
      (saveCurrent "f3" "T3" wStC2).1.editingId = none ∧
      (saveCurrent "f3" "T3" wStC2).1.title = "" ∧
      (saveCurrent "f3" "T3" wStC2).1.body = "") :=
  ⟨by decide, C2_update_missing_abandons_edit "f3" "T3" "zz" wStC2
    (by decide) (by decide) (by decide) (by decide) (by decide)⟩

def wNoteE : Note := { id := "", title := "Empty id", body := "loaded", updatedAt := "T0" }

def wStC9e : AppState :=
  { notes := [wNoteE], editingId := some "", title := "Empty id", body := " loaded " }

/-- C9 counterexample: the claim quantifies over every existing note id,
but a note with id `""` is loadable from storage (a stored element
`{"id": "", ...}` keeps its empty id, since `??` fires only on
null/undefined), and a save from Editing of `""` — even with non-blank
drafts that trim to exactly the stored title and body — hits the falsy
`if (editingId)` guard and does nothing: no `updatedAt` refresh and no
persistence write, so the no-change edit is a no-op at this id. -/
theorem C9_empty_id_counterexample :
    saveCurrent "f8" "T8" wStC9e = (wStC9e, false) ∧
    (saveCurrent "f8" "T8" wStC9e).1.notes = [wNoteE] ∧
    wNoteE.updatedAt = "T0" := by
  decide

/-- C9 amended: a save from Editing mode targeting a non-empty id whose
trimmed drafts coincide with the target note's stored title and body
still stamps the note with `updatedAt = now` and still calls `setNotes`
(triggering a persistence write): the store performs no
change-detection.  (The one exception is the loadable empty-string id,
for which the falsy `if (editingId)` guard skips the save entirely; see
the counterexample.) -/
theorem C9_identical_update_refreshes (freshId now eid : String) (s : AppState) (n : Note)
    (hmode : s.editingId = some eid) (hne : eid ≠ "NEW") (hemp : eid ≠ "")
    (h : ¬(jsTrim s.title = "" ∧ jsTrim s.body = ""))
    (hn : n ∈ s.notes) (hid : n.id = eid)
    (htitle : n.title = if jsTrim s.title = "" then "Untitled" else jsTrim s.title)
    (hbody : n.body = jsTrim s.body) :
    (saveCurrent freshId now s).2 = true ∧
    { n with updatedAt := now } ∈ (saveCurrent freshId now s).1.notes ∧
    ({ n with updatedAt := now } : Note).title = n.title ∧
    ({ n with updatedAt := now } : Note).body = n.body ∧
    ({ n with updatedAt := now } : Note).updatedAt = now := by
  rw [saveCurrent_edit freshId now eid s hmode hne hemp h]
  refine ⟨rfl, ?_, rfl, rfl, rfl⟩
  have hfn : { n with updatedAt := now } = (fun m : Note =>
      if m.id = eid then
        { m with
            title := if jsTrim s.title = "" then "Untitled" else jsTrim s.title
            body := jsTrim s.body
            updatedAt := now }
      else m) n := by
    show { n with updatedAt := now } = if n.id = eid then _ else n
    rw [if_pos hid, ← htitle, ← hbody]
  rw [hfn]
  exact List.mem_map_of_mem _ hn

def wStC9 : AppState :=
  { notes := [wNoteA], editingId := some "a1", title := " Groceries ", body := "Milk, eggs" }

/-- Witness for the amended C9: re-saving the note `a1` with drafts that
trim to its current title and body. -/
theorem C9_identical_update_refreshes_witness :
    wNoteA.title = (if jsTrim wStC9.title = "" then "Untitled" else jsTrim wStC9.title) ∧
    ((saveCurrent "f4" "T4" wStC9).2 = true ∧
      { wNoteA with updatedAt := "T4" } ∈ (saveCurrent "f4" "T4" wStC9).1.notes ∧
      ({ wNoteA with updatedAt := "T4" } : Note).title = wNoteA.title ∧
      ({ wNoteA with updatedAt := "T4" } : Note).body = wNoteA.body ∧
      ({ wNoteA with updatedAt := "T4" } : Note).updatedAt = "T4") :=
  ⟨by decide, C9_identical_update_refreshes "f4" "T4" "a1" wStC9 wNoteA
    (by decide) (by decide) (by decide) (by decide) (by decide) (by decide) (by decide)
    (by decide)⟩

/-- C10: deleting an id distinct from the session's current target
(`Editing(y)` with `y ≠ x`, or Creating, whose sentinel target is
`"NEW"`) leaves the editor session untouched: mode and both draft fields
keep their prior values, and only the note collection is filtered. -/
theorem C10_delete_other_preserves_editor (x y : String) (s : AppState)
    (hmode : s.editingId = some y) (hne : y ≠ x) :
    (deleteNote x s).editingId = s.editingId ∧
    (deleteNote x s).title = s.title ∧
    (deleteNote x s).body = s.body ∧
    (deleteNote x s).notes = s.notes.filter fun n => n.id != x := by
  simp only [deleteNote]
  rw [hmode]
  simp [hne]

def wStC10 : AppState :=
  { notes := [wNoteA, wNoteB], editingId := some "b2", title := "draft t", body := "draft b" }

/-- Witness for C10: deleting `a1` while editing `b2` keeps the session. -/
theorem C10_delete_other_preserves_editor_witness :
    wStC10.editingId = some "b2" ∧
    (deleteNote "a1" wStC10).editingId = wStC10.editingId ∧
    (deleteNote "a1" wStC10).title = wStC10.title ∧
    (deleteNote "a1" wStC10).body = wStC10.body ∧
    (deleteNote "a1" wStC10).notes = [wNoteB] := by
  have h := C10_delete_other_preserves_editor "a1" "b2" wStC10 (by decide) (by decide)
  refine ⟨by decide, h.1, h.2.1, h.2.2.1, ?_⟩
  rw [h.2.2.2]
  decide

/-- C6: deleting the note currently being edited sends the session to
Idle with both drafts cleared, removes every note with that id, makes the
immediately following save a complete no-op (no state change, no write),
and — for any later state in which that id is being edited but no note
carries it — a save can never commit drafts for it: the collection is
left element-for-element unchanged. -/
theorem C6_delete_while_editing_resets (freshId now x : String) (s : AppState)
    (hmode : s.editingId = some x) (hne : x ≠ "NEW") :
    (deleteNote x s).editingId = none ∧
    (deleteNote x s).title = "" ∧
    (deleteNote x s).body = "" ∧
    (∀ n ∈ (deleteNote x s).notes, n.id ≠ x) ∧
    saveCurrent freshId now (deleteNote x s) = (deleteNote x s, false) ∧
    (∀ s' : AppState, s'.editingId = some x → (∀ n ∈ s'.notes, n.id ≠ x) →
      (saveCurrent freshId now s').1.notes = s'.notes) := by
  have hdel := deleteNote_editing x s hmode
  refine ⟨by rw [hdel], by rw [hdel], by rw [hdel], ?_, ?_, ?_⟩
  · rw [hdel]
    intro n hn
    simpa using (List.mem_filter.mp hn).2
  · rw [hdel]
    exact saveCurrent_blank _ _ _ rfl rfl
  · intro s' h1 h2
    exact saveCurrent_edit_missing_notes freshId now x s' h1 hne h2

def wStC6 : AppState :=
  { notes := [wNoteA, wNoteB], editingId := some "a1", title := "stale t", body := "stale b" }

/-- Witness for C6: deleting `a1` while editing `a1`. -/
theorem C6_delete_while_editing_resets_witness :
    wStC6.editingId = some "a1" ∧
    (deleteNote "a1" wStC6).editingId = none ∧
    (deleteNote "a1" wStC6).title = "" ∧
    (deleteNote "a1" wStC6).body = "" ∧
    saveCurrent "f5" "T5" (deleteNote "a1" wStC6) = (deleteNote "a1" wStC6, false) := by
  have h := C6_delete_while_editing_resets "f5" "T5" "a1" wStC6 (by decide) (by decide)
  exact ⟨by decide, h.1, h.2.1, h.2.2.1, h.2.2.2.2.1⟩

/-- C7: the search filter returns the collection unchanged (same
elements, same order) when the query trims to the empty string; otherwise
it returns, in their original relative order, exactly the notes whose
lower-cased `title ++ "\n" ++ body` contains the lower-cased trimmed
query as a contiguous substring (`containsSub` is proved to coincide with
substring containment); in particular the filter is case-insensitive:
`"ABC"` and `"abc"` produce identical results on every collection. -/
theorem C7_filter_spec (notes : List Note) (query : String) :
    (jsTrim query = "" → filterNotes notes query = notes) ∧
    (jsTrim query ≠ "" →
      filterNotes notes query = notes.filter fun n =>
        containsSub (jsToLower (jsTrim query)).data
          (jsToLower (n.title ++ "\n" ++ n.body)).data) ∧
    (∀ needle hay : List Char,
      containsSub needle hay = true ↔ ∃ a b, hay = a ++ needle ++ b) ∧
    filterNotes notes "ABC" = filterNotes notes "abc" := by
  refine ⟨?_, ?_, containsSub_iff, ?_⟩
  · intro h
    have h0 : jsToLower (jsTrim query) = "" := by rw [h]; rfl
    simp only [filterNotes]
    rw [h0, if_pos rfl]
  · intro h
    have hq : jsToLower (jsTrim query) ≠ "" :=
      fun he => h ((jsToLower_eq_empty_iff (jsTrim query)).mp he)
    simp only [filterNotes]
    rw [if_neg hq]
  · have h1 : jsToLower (jsTrim "ABC") = "abc" := by decide
    have h2 : jsToLower (jsTrim "abc") = "abc" := by decide
    simp only [filterNotes]
    rw [h1, h2]

/-- Witness for C7: a blank query returns the two-note list unchanged,
and the query `"ALPHA"` (case-insensitively) selects exactly the note
whose title is `"Groceries"`... here the note `wNoteB` via `"BETA"`. -/
theorem C7_filter_spec_witness :
    jsTrim "   " = "" ∧ filterNotes [wNoteA, wNoteB] "   " = [wNoteA, wNoteB] ∧
    jsTrim " BETA " ≠ "" ∧ filterNotes [wNoteA, wNoteB] " BETA " = [wNoteB] := by
  refine ⟨by decide, (C7_filter_spec [wNoteA, wNoteB] "   ").1 (by decide), by decide, ?_⟩
  rw [(C7_filter_spec [wNoteA, wNoteB] " BETA ").2.1 (by decide)]
  decide

theorem coerceNote_noteToJVal (freshId now : String) (n : Note) :
    coerceNote freshId now (noteToJVal n) = n := rfl

theorem loadElems_map_noteToJVal (fresh : Nat → String) (now : String) (notes : List Note) :
    ∀ i, loadElems fresh now i (notes.map noteToJVal) = notes := by
  induction notes with
  | nil => intro i; rfl
  | cons n ns ih =>
      intro i
      have step : loadElems fresh now i (noteToJVal n :: ns.map noteToJVal)
          = coerceNote (fresh i) now (noteToJVal n)
              :: loadElems fresh now (i + 1) (ns.map noteToJVal) := rfl
      rw [List.map_cons, step, coerceNote_noteToJVal, ih (i + 1)]

/-- C8: persisting a collection and loading it back yields the same
collection, element for element and in the same order, for every
well-formed list of notes, every id oracle and every clock value — the
load-time coercion is the identity on records saved by
`saveNotesToStorage`. -/
theorem C8_save_load_roundtrip (fresh : Nat → String) (now : String) (notes : List Note) :
    loadNotesFromStorage fresh now (some (saveNotesToStorage notes)) = notes := by
  show loadElems fresh now 0 (notes.map noteToJVal) = notes
  exact loadElems_map_noteToJVal fresh now notes 0

def wStC5 : AppState :=
  { notes := [wNoteA], editingId := none, title := "old title", body := "old body" }

/-- C5 counterexample: the claim says `startEdit(id)` with an absent id
leaves the session in Idle with no stale drafts; in the code `startEdit`
sets `editingId` unconditionally and the editor-sync effect returns early
when the note is missing, so the session is Editing of the missing id and
both drafts keep their previous values. -/
theorem C5_startEdit_missing_counterexample :
    (syncEditorEffect (startEdit "missing" wStC5)).editingId = some "missing" ∧
    (syncEditorEffect (startEdit "missing" wStC5)).editingId ≠ none ∧
    (syncEditorEffect (startEdit "missing" wStC5)).title = "old title" ∧
    (syncEditorEffect (startEdit "missing" wStC5)).body = "old body" := by
  decide

/-- C5 amended: for an id not present in the collection, `startEdit(id)`
followed by the editor-sync effect puts the session in Editing of that id
— not Idle — and leaves everything else (both drafts and the collection)
exactly as it was; the Idle fallback claimed by the spec is not
implemented in `startEdit` (deletion of the edited note is instead
handled inside `deleteNote`). -/
theorem C5_startEdit_missing_keeps_drafts (id : String) (s : AppState)
    (hmiss : ∀ n ∈ s.notes, n.id ≠ id) :
    syncEditorEffect (startEdit id s) = { s with editingId := some id } := by
  have h0 : editingNote (startEdit id s) = none := by
    show s.notes.find? (fun n => n.id == id) = none
    apply List.find?_eq_none.mpr
    intro n hn
    simpa using hmiss n hn
  unfold syncEditorEffect
  rw [h0]
  rfl

def wStC5b : AppState :=
  { notes := [wNoteB], editingId := none, title := "keep t", body := "keep b" }

/-- Witness for the amended C5 at a concrete state. -/
theorem C5_startEdit_missing_keeps_drafts_witness :
    syncEditorEffect (startEdit "missing" wStC5b) =
      { notes := [wNoteB], editingId := some "missing", title := "keep t", body := "keep b" } :=
  C5_startEdit_missing_keeps_drafts "missing" wStC5b (by decide)

theorem jToStr_str (s : String) : jToStr (JVal.str s) = s := by
  unfold jToStr
  rfl

def fresh0 : Nat → String := fun _ => "freshid"

/-- A stored blob holding one object whose title is a single space and
whose body is empty: both fields are blank after trimming. -/
def badRaw : JVal :=
  .arr [.obj [("id", .str "a"), ("title", .str " "), ("body", .str "")]]

def wBlank : Note := { id := "a", title := " ", body := "", updatedAt := "T0" }

/-- C1 counterexample: the claim says load never yields an element that is
subsequently persisted with both fields blank; in the code `load` performs
no blank filtering, so the blob `badRaw` loads to a note that is blank
after trimming, and the save effect (which serializes the whole collection
on every `notes` change, including the initial mount) then hands exactly
that blank note to the persistence write. -/
theorem C1_blank_note_survives_load_counterexample :
    loadNotesFromStorage fresh0 "T0" (some badRaw) = [wBlank] ∧
    blankNote wBlank ∧
    saveNotesToStorage [wBlank] = JVal.arr [noteToJVal wBlank] := by
  have hc : coerceNote "freshid" "T0"
      (JVal.obj [("id", JVal.str "a"), ("title", JVal.str " "), ("body", JVal.str "")])
      = wBlank := by
    show Note.mk (jToStr (JVal.str "a")) (jToStr (JVal.str " ")) (jToStr (JVal.str "")) "T0"
        = wBlank
    rw [jToStr_str, jToStr_str, jToStr_str]
    rfl
  have hload : loadNotesFromStorage fresh0 "T0" (some badRaw) = [wBlank] := by
    show [coerceNote "freshid" "T0"
        (JVal.obj [("id", JVal.str "a"), ("title", JVal.str " "), ("body", JVal.str "")])]
      = [wBlank]
    rw [hc]
  exact ⟨hload, by decide, rfl⟩

/-- C1 amended: the create/update path never introduces a blank note —
every note a save adds or rewrites has a non-empty trimmed title
(`trim(t)` or `"Untitled"`) — so a collection free of blank notes stays
free of blank notes across saves; the original claim fails only for
collections seeded by `load`, which does not discard blank stored
entries (see the counterexample). -/
theorem C1_saves_never_introduce_blank (freshId now : String) (s : AppState)
    (h : ∀ n ∈ s.notes, ¬ blankNote n) :
    ∀ n ∈ (saveCurrent freshId now s).1.notes, ¬ blankNote n := by
  by_cases hblank : jsTrim s.title = "" ∧ jsTrim s.body = ""
  · rw [saveCurrent_blank freshId now s hblank.1 hblank.2]
    exact h
  · have htitle : jsTrim (if jsTrim s.title = "" then "Untitled" else jsTrim s.title) ≠ "" := by
      by_cases ht : jsTrim s.title = ""
      · rw [if_pos ht]
        decide
      · rw [if_neg ht, jsTrim_idem]
        exact ht
    cases hmode : s.editingId with
    | none =>
        rw [saveCurrent_idle freshId now s hmode]
        exact h
    | some eid =>
        by_cases hnew : eid = "NEW"
        · subst hnew
          rw [saveCurrent_new freshId now s hmode hblank]
          intro n hn
          rcases List.mem_cons.mp hn with rfl | hn
          · exact fun hb => htitle hb.1
          · exact h n hn
        · by_cases hemp : eid = ""
          · subst hemp
            rw [saveCurrent_falsy_edit freshId now s hmode]
            exact h
          · rw [saveCurrent_edit freshId now eid s hmode hnew hemp hblank]
            intro n hn
            obtain ⟨m, hm, rfl⟩ := List.mem_map.mp hn
            by_cases hid : m.id = eid
            · rw [if_pos hid]
              exact fun hb => htitle hb.1
            · rw [if_neg hid]
              exact h m hm

def wStC1 : AppState :=
  { notes := [wNoteA], editingId := some "NEW", title := "", body := " x " }

/-- Witness for the amended C1: the note created from a blank title and
the body `" x "` is not blank (its title falls back to `"Untitled"`). -/
theorem C1_saves_never_introduce_blank_witness :
    ¬ blankNote { id := "f9", title := "Untitled", body := "x", updatedAt := "T9" } :=
  C1_saves_never_introduce_blank "f9" "T9" wStC1 (by decide)
    { id := "f9", title := "Untitled", body := "x", updatedAt := "T9" } (by decide)
